import Mathlib

/-!
Verification of the `lmppl` perplexity scorer (`src/lmppl/ppl_recurrent_lm.py`).

The scorer wraps a pretrained tokenizer and causal language model.  The
tokenizer, the model forward pass and the per-token cross-entropy function are
external library calls; they are embedded as abstract parameters of the `LM`
structure.  Everything the repository itself computes — padding arrangement,
dropping of `token_type_ids`, the synthetic-pad vocabulary-column drop, the
pad→ignore-index label replacement, the causal shift, the masked loss sum and
the division by the valid-position count, the fixed-size batching loop and the
final exponentiation — is embedded directly from the source.  Rational numbers
stand for the floating-point scalars of the loss computation, and `Real.exp`
for `math.exp`.
-/

namespace Lmppl

/-- Source line 25: `PAD_TOKEN_LABEL_ID = torch.nn.CrossEntropyLoss().ignore_index`,
which is `-100`. -/
def PAD_TOKEN_LABEL_ID : Int := -100

/-- The scorer state after `LM.__init__`.  `tokenizeRaw` is the tokenizer on a
single text, before padding and truncation; `hadPadToken` records whether
`tokenizer.pad_token` was present originally (source lines 75–79 set
`pad_token_initialized` exactly when it was not); `logits` is the model forward
pass on one padded sequence with its attention mask, returning one vocabulary
row of logits per position; `ce` is `torch.nn.CrossEntropyLoss(reduction='none')`
on a single logit row and a non-ignored target class. -/
structure LM where
  tokenizeRaw : String → List Nat
  padTokenId : Nat
  hadPadToken : Bool
  producesTokenTypeIds : Bool
  modelMaxLength : Nat
  max_length : Option Nat
  logits : List Nat → List Nat → List (List ℚ)
  ce : List ℚ → Nat → ℚ

/-- Source lines 75–79: `self.pad_token_initialized` is `True` exactly when the
tokenizer had no pad token and the synthetic `<<PAD>>` token was added. -/
def LM.pad_token_initialized (M : LM) : Bool := !M.hadPadToken

/-- Right padding of a token sequence with the pad token up to width `n`
(the padding side used by the huggingface tokenizer call of lines 119–129). -/
def padTo (padId n : Nat) (xs : List Nat) : List Nat :=
  xs ++ List.replicate (n - xs.length) padId

/-- Attention mask of a sequence of `len` real tokens padded to width `n`. -/
def maskOf (n len : Nat) : List Nat :=
  List.replicate len 1 ++ List.replicate (n - len) 0

/-- The fields of the tokenizer's output that the code touches. -/
structure ModelInputs where
  input_ids : List (List Nat)
  attention_mask : List (List Nat)
  token_type_ids : Option (List (List Nat))

/-- Truncation applied by the tokenizer call: to `max_length` when the scorer
was built with one (line 119–124), otherwise `truncation=True` truncates to the
tokenizer's model max length (lines 126–129). -/
def LM.trunc_tokens (M : LM) (texts : List String) : List (List Nat) :=
  match M.max_length with
  | some L => texts.map fun t => (M.tokenizeRaw t).take L
  | none => texts.map fun t => (M.tokenizeRaw t).take M.modelMaxLength

/-- Width every sequence is padded to: `padding='max_length'` pads to the fixed
`max_length` (line 123), `padding=True` pads to the longest sequence of the
batch (line 128). -/
def LM.pad_width (M : LM) (texts : List String) : Nat :=
  match M.max_length with
  | some L => L
  | none => ((M.trunc_tokens texts).map List.length).foldr max 0

/-- The tokenizer call of lines 119–129: padded input ids, the matching
attention mask, and a `token_type_ids` field when this tokenizer produces
one. -/
def LM.tokenizer_output (M : LM) (texts : List String) : ModelInputs where
  input_ids := (M.trunc_tokens texts).map (padTo M.padTokenId (M.pad_width texts))
  attention_mask :=
    (M.trunc_tokens texts).map fun xs => maskOf (M.pad_width texts) xs.length
  token_type_ids :=
    if M.producesTokenTypeIds then
      some ((M.trunc_tokens texts).map fun _ => List.replicate (M.pad_width texts) 0)
    else none

/-- Lines 130–131: `model_inputs.pop('token_type_ids')` — the inputs actually
passed to the model never carry a `token_type_ids` field. -/
def LM.model_inputs (M : LM) (texts : List String) : ModelInputs where
  input_ids := (M.tokenizer_output texts).input_ids
  attention_mask := (M.tokenizer_output texts).attention_mask
  token_type_ids := none

/-- Lines 146–147: when the synthetic pad token was added at construction, the
last vocabulary column of the logits is dropped (`logit[:, :, :-1]`). -/
def LM.used_logits (M : LM) (ids mask : List Nat) : List (List ℚ) :=
  if M.pad_token_initialized then (M.logits ids mask).map List.dropLast
  else M.logits ids mask

/-- Lines 150–152: the labels are the input ids with every pad-token position
replaced by `PAD_TOKEN_LABEL_ID`. -/
def masked_label (padId : Nat) (ids : List Nat) : List Int :=
  ids.map fun t => if t = padId then PAD_TOKEN_LABEL_ID else (t : Int)

/-- Line 155: `shift_logits = logit[..., :-1, :]` — the last position row is
dropped. -/
def LM.shift_logits (M : LM) (ids mask : List Nat) : List (List ℚ) :=
  (M.used_logits ids mask).dropLast

/-- Line 156: `shift_label = label[:, 1:]` — the first label is dropped. -/
def LM.shift_label (M : LM) (ids : List Nat) : List Int :=
  (masked_label M.padTokenId ids).drop 1

/-- Line 159: `valid_length = (shift_label != PAD_TOKEN_LABEL_ID).sum(dim=-1)`. -/
def LM.valid_length (M : LM) (ids : List Nat) : Nat :=
  (M.shift_label ids).countP fun l => decide (l ≠ PAD_TOKEN_LABEL_ID)

/-- One cell of `torch.nn.CrossEntropyLoss(reduction='none')`: zero at an
ignored target (the documented `ignore_index` behaviour), the abstract
cross-entropy value otherwise. -/
def lossAt (ce : List ℚ → Nat → ℚ) (row : List ℚ) (lbl : Int) : ℚ :=
  if lbl = PAD_TOKEN_LABEL_ID then 0 else ce row lbl.toNat

/-- Lines 158–164 on a single sequence of the batch: per-position losses of the
shifted logit/label pair, summed and divided by `valid_length`. -/
def LM.seq_loss (M : LM) (ids mask : List Nat) : ℚ :=
  ((((M.shift_logits ids mask).zip (M.shift_label ids)).map
      fun p => lossAt M.ce p.1 p.2).sum)
    / (M.valid_length ids : ℚ)

/-- Python `range(0, n, b)` for a positive step `b` (line 136). -/
def pyRangeStep (n b : Nat) : List Nat := List.range' 0 ((n + b - 1) / b) b

/-- The per-sequence rows `(input_ids, attention_mask)` the batching loop
slices (lines 139–142). -/
def LM.seq_rows (M : LM) (texts : List String) : List (List Nat × List Nat) :=
  (M.model_inputs texts).input_ids.zip (M.model_inputs texts).attention_mask

/-- Lines 133–165: the loop over `range(0, len(input_texts), batch)`, slicing
`v[start:start+batch]` out of the pre-tokenized inputs, computing each
sequence's loss, and concatenating the per-batch loss lists. -/
def LM.loss_list (M : LM) (texts : List String) (batch : Option Nat) : List ℚ :=
  ((pyRangeStep texts.length (batch.getD texts.length)).map
    fun s => (((M.seq_rows texts).drop s).take (batch.getD texts.length)).map
      fun r => M.seq_loss r.1 r.2).flatten

/-- Line 174: `ppl = [exp(i) for i in loss_list]`. -/
noncomputable def LM.ppl_list (M : LM) (texts : List String) (batch : Option Nat) :
    List ℝ :=
  (M.loss_list texts batch).map fun q => Real.exp (q : ℚ)

/-- Lines 105–175, `LM.get_perplexity`.  A `str` input is wrapped into a
singleton list and line 175 returns `ppl[0]`; a list input returns the whole
list.  The `forced_reset` branch (lines 167–171) only frees local tensor
references and runs the garbage collector after the losses of the batch were
appended, so it has no value-level content in the embedding. -/
noncomputable def LM.get_perplexity (M : LM) (input : String ⊕ List String)
    (batch : Option Nat) (forced_reset : Bool) : ℝ ⊕ List ℝ :=
  match input with
  | Sum.inl s => Sum.inl ((M.ppl_list [s] batch).headI)
  | Sum.inr ts => Sum.inr (M.ppl_list ts batch)

/-- Public methods of the class `LM` other than the constructor
(source line 105 is the only `def` in the class body besides `__init__`). -/
def lm_public_methods : List String := ["get_perplexity"]

/-- Mean negative log-likelihood in the words of the specification: the
per-token cross-entropy losses at the non-ignored positions of the shifted
label sequence, summed, divided by the count of those positions. -/
def spec_mean_nll (M : LM) (ids mask : List Nat) : ℚ :=
  (((((M.shift_logits ids mask).zip (M.shift_label ids)).filter
      fun p => decide (p.2 ≠ PAD_TOKEN_LABEL_ID)).map
      fun p => M.ce p.1 p.2.toNat).sum)
    / (((((M.shift_logits ids mask).zip (M.shift_label ids)).filter
      fun p => decide (p.2 ≠ PAD_TOKEN_LABEL_ID)).length : ℚ))

/-! ### Helper lemmas -/

theorem getElem?_drop_eq (l : List α) (n i : Nat) : (l.drop n)[i]? = l[n + i]? := by
  induction n generalizing l with
  | zero => simp
  | succ n ih =>
    cases l with
    | nil => simp
    | cons a t => simp [Nat.succ_add, ih t]

theorem le_foldr_max {x : Nat} : ∀ {l : List Nat}, x ∈ l → x ≤ l.foldr max 0 := by
  intro l h
  induction l with
  | nil => cases h
  | cons a t ih =>
    rcases List.mem_cons.mp h with rfl | ht
    · exact Nat.le_max_left _ _
    · exact Nat.le_trans (ih ht) (Nat.le_max_right _ _)

theorem length_trunc_tokens (M : LM) (ts : List String) :
    (M.trunc_tokens ts).length = ts.length := by
  unfold LM.trunc_tokens
  cases M.max_length <;> simp

theorem length_input_ids (M : LM) (ts : List String) :
    (M.model_inputs ts).input_ids.length = ts.length := by
  simp [LM.model_inputs, LM.tokenizer_output, length_trunc_tokens]

theorem length_attention_mask (M : LM) (ts : List String) :
    (M.model_inputs ts).attention_mask.length = ts.length := by
  simp [LM.model_inputs, LM.tokenizer_output, length_trunc_tokens]

theorem length_seq_rows (M : LM) (ts : List String) :
    (M.seq_rows ts).length = ts.length := by
  simp [LM.seq_rows, length_input_ids, length_attention_mask]

theorem length_used_logits (M : LM) (ids mask : List Nat) :
    (M.used_logits ids mask).length = (M.logits ids mask).length := by
  unfold LM.used_logits
  split <;> simp

theorem length_masked_label (padId : Nat) (ids : List Nat) :
    (masked_label padId ids).length = ids.length := by
  simp [masked_label]

theorem length_shift_label (M : LM) (ids : List Nat) :
    (M.shift_label ids).length = ids.length - 1 := by
  simp [LM.shift_label, length_masked_label]

theorem length_shift_logits (M : LM) (ids mask : List Nat)
    (hshape : (M.logits ids mask).length = ids.length) :
    (M.shift_logits ids mask).length = ids.length - 1 := by
  simp [LM.shift_logits, length_used_logits, hshape]

theorem natCast_ne_pad_label (t : Nat) : ((t : Int)) ≠ PAD_TOKEN_LABEL_ID := by
  simp only [PAD_TOKEN_LABEL_ID]
  omega

theorem getElem?_masked_label (padId : Nat) (ids : List Nat) (i : Nat) :
    (masked_label padId ids)[i]? = some PAD_TOKEN_LABEL_ID ↔ ids[i]? = some padId := by
  simp only [masked_label, List.getElem?_map]
  cases h : ids[i]? with
  | none => simp
  | some t =>
    simp only [Option.map_some', Option.some.injEq]
    by_cases ht : t = padId
    · simp [ht]
    · simp [ht, natCast_ne_pad_label t]

theorem countP_masked_label (padId : Nat) (ids : List Nat) :
    (masked_label padId ids).countP (fun l => decide (l ≠ PAD_TOKEN_LABEL_ID))
      = ids.countP fun t => decide (t ≠ padId) := by
  unfold masked_label
  rw [List.countP_map]
  apply List.countP_congr
  intro t _
  by_cases ht : t = padId
  · simp [ht, Function.comp]
  · simp [ht, Function.comp, natCast_ne_pad_label t]

theorem shift_label_eq_masked_drop (M : LM) (ids : List Nat) :
    M.shift_label ids = masked_label M.padTokenId (ids.drop 1) := by
  unfold LM.shift_label masked_label
  exact (List.map_drop _ _ _).symm

theorem valid_length_eq_countP (M : LM) (ids : List Nat) :
    M.valid_length ids = (ids.drop 1).countP fun t => decide (t ≠ M.padTokenId) := by
  unfold LM.valid_length
  rw [shift_label_eq_masked_drop, countP_masked_label]

theorem sum_lossAt_eq (ce : List ℚ → Nat → ℚ) :
    ∀ pairs : List (List ℚ × Int),
      ((pairs.map fun p => lossAt ce p.1 p.2).sum)
        = (((pairs.filter fun p => decide (p.2 ≠ PAD_TOKEN_LABEL_ID)).map
            fun p => ce p.1 p.2.toNat).sum) := by
  intro pairs
  induction pairs with
  | nil => simp
  | cons hd tl ih =>
    by_cases h : hd.2 = PAD_TOKEN_LABEL_ID
    · have h0 : lossAt ce hd.1 hd.2 = 0 := by simp [lossAt, h]
      have hf : (hd :: tl).filter (fun p => decide (p.2 ≠ PAD_TOKEN_LABEL_ID))
          = tl.filter (fun p => decide (p.2 ≠ PAD_TOKEN_LABEL_ID)) := by
        simp [List.filter_cons, h]
      rw [List.map_cons, List.sum_cons, h0, zero_add, ih, hf]
    · have h0 : lossAt ce hd.1 hd.2 = ce hd.1 hd.2.toNat := by simp [lossAt, h]
      have hf : (hd :: tl).filter (fun p => decide (p.2 ≠ PAD_TOKEN_LABEL_ID))
          = hd :: tl.filter (fun p => decide (p.2 ≠ PAD_TOKEN_LABEL_ID)) := by
        simp [List.filter_cons, h]
      rw [List.map_cons, List.sum_cons, h0, ih, hf, List.map_cons, List.sum_cons]

theorem countP_snd_zip (p : Int → Bool) (A : List (List ℚ)) (B : List Int)
    (h : B.length ≤ A.length) :
    ((A.zip B).countP fun q => p q.2) = B.countP p := by
  have hmap : (A.zip B).map Prod.snd = B := List.map_snd_zip A B h
  calc ((A.zip B).countP fun q => p q.2)
      = ((A.zip B).map Prod.snd).countP p := by
        rw [List.countP_map]
        rfl
    _ = B.countP p := by rw [hmap]

theorem seq_loss_eq_spec (M : LM) (ids mask : List Nat)
    (hshape : (M.logits ids mask).length = ids.length) :
    M.seq_loss ids mask = spec_mean_nll M ids mask := by
  unfold LM.seq_loss spec_mean_nll
  have hnum := sum_lossAt_eq M.ce ((M.shift_logits ids mask).zip (M.shift_label ids))
  have hlen : (M.shift_label ids).length ≤ (M.shift_logits ids mask).length := by
    rw [length_shift_label, length_shift_logits M ids mask hshape]
  have hden : M.valid_length ids
      = (((M.shift_logits ids mask).zip (M.shift_label ids)).filter
          fun p => decide (p.2 ≠ PAD_TOKEN_LABEL_ID)).length := by
    rw [← List.countP_eq_length_filter]
    unfold LM.valid_length
    rw [countP_snd_zip (fun l => decide (l ≠ PAD_TOKEN_LABEL_ID)) _ _ hlen]
  rw [hnum, hden]

theorem flatten_chunks {α : Type} (b : Nat) :
    ∀ (k : Nat) (xs : List α), xs.length ≤ k * b →
      ((List.range' 0 k b).map fun s => (xs.drop s).take b).flatten = xs := by
  intro k
  induction k with
  | zero =>
    intro xs h
    simp only [Nat.zero_mul, Nat.le_zero] at h
    have : xs = [] := List.length_eq_zero.mp h
    simp [this]
  | succ k ih =>
    intro xs h
    rw [List.range'_succ, List.map_cons, List.flatten_cons]
    have hr : List.range' b k b = (List.range' 0 k b).map (b + ·) := by
      have hmr := (List.map_add_range' b 0 k b).symm
      rwa [Nat.add_zero] at hmr
    have htail : (List.range' (0 + b) k b).map (fun s => (xs.drop s).take b)
        = (List.range' 0 k b).map fun s => ((xs.drop b).drop s).take b := by
      rw [Nat.zero_add, hr, List.map_map]
      apply List.map_congr_left
      intro s _
      simp only [Function.comp]
      rw [List.drop_drop]
    have hlen : (xs.drop b).length ≤ k * b := by
      rw [List.length_drop]
      have : xs.length ≤ k * b + b := by
        calc xs.length ≤ (k + 1) * b := h
          _ = k * b + b := by rw [Nat.succ_mul]
      omega
    rw [htail, ih (xs.drop b) hlen]
    simp [List.take_append_drop]

theorem le_ceil_mul (n b : Nat) (hb : 1 ≤ b) : n ≤ ((n + b - 1) / b) * b := by
  have hd := Nat.div_add_mod (n + b - 1) b
  have hm : (n + b - 1) % b < b := Nat.mod_lt _ (by omega)
  have hc : ((n + b - 1) / b) * b = b * ((n + b - 1) / b) := Nat.mul_comm _ _
  omega

theorem ceil_mul_lt (n b : Nat) (hb : 1 ≤ b) (hn : 1 ≤ n) :
    ((n + b - 1) / b - 1) * b < n := by
  have hd : ((n + b - 1) / b) * b ≤ n + b - 1 := Nat.div_mul_le_self _ _
  have hs : ((n + b - 1) / b - 1) * b = ((n + b - 1) / b) * b - b :=
    Nat.sub_one_mul _ _
  omega

theorem length_pyRangeStep (n b : Nat) :
    (pyRangeStep n b).length = (n + b - 1) / b := by
  simp [pyRangeStep]

theorem getElem?_pyRangeStep (n b i : Nat) (hi : i < (n + b - 1) / b) :
    (pyRangeStep n b)[i]? = some (i * b) := by
  unfold pyRangeStep
  rw [List.getElem?_eq_getElem (by simpa using hi)]
  rw [List.getElem_range']
  rw [Nat.zero_add, Nat.mul_comm]

theorem loss_list_eq_map (M : LM) (ts : List String) (batch : Option Nat)
    (hb : 1 ≤ batch.getD ts.length) :
    M.loss_list ts batch = (M.seq_rows ts).map fun r => M.seq_loss r.1 r.2 := by
  unfold LM.loss_list
  have hcomm : ∀ s : Nat,
      (((M.seq_rows ts).drop s).take (batch.getD ts.length)).map
          (fun r => M.seq_loss r.1 r.2)
        = ((((M.seq_rows ts).map fun r => M.seq_loss r.1 r.2).drop s).take
            (batch.getD ts.length)) := by
    intro s
    rw [List.map_take, List.map_drop]
  have hlen : ((M.seq_rows ts).map fun r => M.seq_loss r.1 r.2).length
      ≤ ((ts.length + batch.getD ts.length - 1) / batch.getD ts.length)
          * batch.getD ts.length := by
    rw [List.length_map, length_seq_rows]
    exact le_ceil_mul ts.length _ hb
  calc ((pyRangeStep ts.length (batch.getD ts.length)).map
          fun s => (((M.seq_rows ts).drop s).take (batch.getD ts.length)).map
            fun r => M.seq_loss r.1 r.2).flatten
      = ((List.range' 0 ((ts.length + batch.getD ts.length - 1)
            / batch.getD ts.length) (batch.getD ts.length)).map
          fun s => ((((M.seq_rows ts).map fun r => M.seq_loss r.1 r.2).drop s).take
            (batch.getD ts.length))).flatten := by
        unfold pyRangeStep
        congr 1
        apply List.map_congr_left
        intro s _
        exact hcomm s
    _ = (M.seq_rows ts).map fun r => M.seq_loss r.1 r.2 :=
        flatten_chunks _ _ _ hlen

/-! ### Concrete scorers for instantiating the theorems -/

/-- A concrete scorer: a constant two-token tokenizer, an ordinary pad token,
a three-class logit row at every position, and a cross-entropy that returns the
target class. -/
def wLM : LM where
  tokenizeRaw := fun _ => [1, 2]
  padTokenId := 0
  hadPadToken := true
  producesTokenTypeIds := false
  modelMaxLength := 16
  max_length := none
  logits := fun ids _ => ids.map fun _ => [1, 2, 3]
  ce := fun _ k => (k : ℚ)

/-- A concrete scorer whose tokenizer returns a single token, so every shifted
label position of a one-text batch is ignored and `valid_length` is zero. -/
def cLM : LM where
  tokenizeRaw := fun _ => [5]
  padTokenId := 0
  hadPadToken := true
  producesTokenTypeIds := false
  modelMaxLength := 16
  max_length := none
  logits := fun ids _ => ids.map fun _ => [1, 2]
  ce := fun _ k => (k : ℚ)

/-! ### The claims -/

/-- Claim C1: every perplexity value returned by `get_perplexity` is the
exponential of the sequence's mean negative log-likelihood: the per-token
cross-entropy losses (computed without reduction) are summed over the
non-ignored positions of the shifted label sequence, divided by the count of
those positions, and the result is exponentiated. -/
theorem claim_C1 (M : LM) (ts : List String) (batch : Option Nat) (j : Nat)
    (ids mask : List Nat) (fr : Bool)
    (hb : 1 ≤ batch.getD ts.length)
    (hids : (M.model_inputs ts).input_ids[j]? = some ids)
    (hmask : (M.model_inputs ts).attention_mask[j]? = some mask)
    (hshape : (M.logits ids mask).length = ids.length)
    (hvalid : 0 < M.valid_length ids) :
    M.get_perplexity (Sum.inr ts) batch fr = Sum.inr (M.ppl_list ts batch)
    ∧ (M.ppl_list ts batch)[j]? = some (Real.exp (spec_mean_nll M ids mask)) := by
  have hv := hvalid
  refine ⟨rfl, ?_⟩
  unfold LM.ppl_list
  rw [loss_list_eq_map M ts batch hb, List.getElem?_map, List.getElem?_map]
  have hrow : (M.seq_rows ts)[j]? = some (ids, mask) := by
    unfold LM.seq_rows
    exact List.getElem?_zip_eq_some.mpr ⟨hids, hmask⟩
  rw [hrow]
  simp only [Option.map_some']
  rw [seq_loss_eq_spec M ids mask hshape]

/-- Witness for C1 at the concrete scorer `wLM` on the single text `"ab"`. -/
theorem claim_C1_witness :
    (1 ≤ (none : Option Nat).getD (["ab"] : List String).length)
    ∧ (wLM.model_inputs ["ab"]).input_ids[0]? = some [1, 2]
    ∧ (wLM.model_inputs ["ab"]).attention_mask[0]? = some [1, 1]
    ∧ (wLM.logits [1, 2] [1, 1]).length = ([1, 2] : List Nat).length
    ∧ 0 < wLM.valid_length [1, 2]
    ∧ (wLM.get_perplexity (Sum.inr ["ab"]) none true = Sum.inr (wLM.ppl_list ["ab"] none)
        ∧ (wLM.ppl_list ["ab"] none)[0]?
            = some (Real.exp (spec_mean_nll wLM [1, 2] [1, 1]))) :=
  ⟨by decide, by decide, by decide, by decide, by decide,
    claim_C1 wLM ["ab"] none 0 [1, 2] [1, 1] true
      (by decide) (by decide) (by decide) (by decide) (by decide)⟩

/-- Claim C2: logits and labels are aligned for causal next-token prediction:
the shifted sequences drop the last logit position and the first label
position, and position `i` of the zipped pair carries the logits of position
`i` together with the label of position `i + 1`. -/
theorem claim_C2 (M : LM) (ids mask : List Nat) (i : Nat)
    (hshape : (M.logits ids mask).length = ids.length)
    (hi : i + 1 < ids.length) :
    (M.shift_logits ids mask).length = ids.length - 1
    ∧ (M.shift_label ids).length = ids.length - 1
    ∧ ∃ row lbl,
        (M.used_logits ids mask)[i]? = some row
        ∧ (masked_label M.padTokenId ids)[i + 1]? = some lbl
        ∧ ((M.shift_logits ids mask).zip (M.shift_label ids))[i]? = some (row, lbl) := by
  refine ⟨length_shift_logits M ids mask hshape, length_shift_label M ids, ?_⟩
  have hu : i < (M.used_logits ids mask).length := by
    rw [length_used_logits, hshape]
    omega
  have hm : i + 1 < (masked_label M.padTokenId ids).length := by
    rw [length_masked_label]
    omega
  refine ⟨(M.used_logits ids mask)[i], (masked_label M.padTokenId ids)[i + 1],
    List.getElem?_eq_getElem hu, List.getElem?_eq_getElem hm, ?_⟩
  apply List.getElem?_zip_eq_some.mpr
  constructor
  · show (M.shift_logits ids mask)[i]? = _
    unfold LM.shift_logits
    rw [List.getElem?_dropLast, if_pos (by rw [length_used_logits, hshape]; omega)]
    exact List.getElem?_eq_getElem hu
  · show (M.shift_label ids)[i]? = _
    unfold LM.shift_label
    rw [getElem?_drop_eq, Nat.add_comm 1 i]
    exact List.getElem?_eq_getElem hm

/-- Witness for C2 at `wLM` with the padded sequence `[1, 2]` and `i = 0`. -/
theorem claim_C2_witness :
    ((wLM.logits [1, 2] [1, 1]).length = ([1, 2] : List Nat).length)
    ∧ (0 + 1 < ([1, 2] : List Nat).length)
    ∧ ((wLM.shift_logits [1, 2] [1, 1]).length = ([1, 2] : List Nat).length - 1
        ∧ (wLM.shift_label [1, 2]).length = ([1, 2] : List Nat).length - 1
        ∧ ∃ row lbl,
            (wLM.used_logits [1, 2] [1, 1])[0]? = some row
            ∧ (masked_label wLM.padTokenId [1, 2])[0 + 1]? = some lbl
            ∧ ((wLM.shift_logits [1, 2] [1, 1]).zip (wLM.shift_label [1, 2]))[0]?
                = some (row, lbl)) :=
  ⟨by decide, by decide, claim_C2 wLM [1, 2] [1, 1] 0 (by decide) (by decide)⟩

/-- Claim C3: every pad-token position of the label sequence is replaced by
`PAD_TOKEN_LABEL_ID` before the loss is computed, such positions contribute a
zero loss cell, and `valid_length` counts exactly the shifted positions whose
token is not the pad token. -/
theorem claim_C3 (M : LM) (ids : List Nat) :
    (∀ i : Nat, (masked_label M.padTokenId ids)[i]? = some PAD_TOKEN_LABEL_ID
        ↔ ids[i]? = some M.padTokenId)
    ∧ (∀ row, lossAt M.ce row PAD_TOKEN_LABEL_ID = 0)
    ∧ M.valid_length ids = (ids.drop 1).countP fun t => decide (t ≠ M.padTokenId) :=
  ⟨fun i => getElem?_masked_label M.padTokenId ids i,
   fun _ => by simp [lossAt],
   valid_length_eq_countP M ids⟩

/-- Witness for C3 at `wLM` with the padded sequence `[1, 2, 0]`. -/
theorem claim_C3_witness :
    (∀ i : Nat, (masked_label wLM.padTokenId [1, 2, 0])[i]? = some PAD_TOKEN_LABEL_ID
        ↔ ([1, 2, 0] : List Nat)[i]? = some wLM.padTokenId)
    ∧ (∀ row, lossAt wLM.ce row PAD_TOKEN_LABEL_ID = 0)
    ∧ wLM.valid_length [1, 2, 0]
        = (([1, 2, 0] : List Nat).drop 1).countP fun t => decide (t ≠ wLM.padTokenId) :=
  claim_C3 wLM [1, 2, 0]

/-- Claim C5: the last vocabulary column of the logits is dropped, before any
shifting, exactly when the tokenizer originally had no pad token (so the
synthetic pad token was injected at construction); otherwise the logits are
used unchanged. -/
theorem claim_C5 (M : LM) (ids mask : List Nat) :
    (M.pad_token_initialized = true ↔ M.hadPadToken = false)
    ∧ (M.hadPadToken = false
        → M.used_logits ids mask = (M.logits ids mask).map List.dropLast)
    ∧ (M.hadPadToken = true → M.used_logits ids mask = M.logits ids mask)
    ∧ M.shift_logits ids mask = (M.used_logits ids mask).dropLast := by
  refine ⟨?_, ?_, ?_, rfl⟩
  · unfold LM.pad_token_initialized
    cases h : M.hadPadToken <;> simp
  · intro h
    unfold LM.used_logits LM.pad_token_initialized
    rw [h]
    simp
  · intro h
    unfold LM.used_logits LM.pad_token_initialized
    rw [h]
    simp

/-- Witness for C5 at `wLM` with the padded sequence `[1, 2]`. -/
theorem claim_C5_witness :
    (wLM.pad_token_initialized = true ↔ wLM.hadPadToken = false)
    ∧ (wLM.hadPadToken = false
        → wLM.used_logits [1, 2] [1, 1] = (wLM.logits [1, 2] [1, 1]).map List.dropLast)
    ∧ (wLM.hadPadToken = true → wLM.used_logits [1, 2] [1, 1] = wLM.logits [1, 2] [1, 1])
    ∧ wLM.shift_logits [1, 2] [1, 1] = (wLM.used_logits [1, 2] [1, 1]).dropLast :=
  claim_C5 wLM [1, 2] [1, 1]

/-- Claim C9: the value returned by `get_perplexity` is identical whether
`forced_reset` is `True` or `False`; the branch only frees local references
and runs the garbage collector after the batch's losses were appended. -/
theorem claim_C9 (M : LM) (input : String ⊕ List String) (batch : Option Nat) :
    M.get_perplexity input batch true = M.get_perplexity input batch false := by
  cases input <;> rfl

/-- Witness for C9 at `wLM` on the list input `["ab"]`. -/
theorem claim_C9_witness :
    wLM.get_perplexity (Sum.inr ["ab"]) none true
      = wLM.get_perplexity (Sum.inr ["ab"]) none false :=
  claim_C9 wLM (Sum.inr ["ab"]) none

/-- Counterexample to C4 as stated: the scorer's sole perplexity operation is
named `get_perplexity`, and no exposed operation is named
`compute_perplexity`. -/
theorem claim_C4_counterexample :
    "compute_perplexity" ∉ lm_public_methods
    ∧ lm_public_methods = ["get_perplexity"] :=
  ⟨by decide, rfl⟩

/-- Claim C4 as amended: the scorer exposes one perplexity operation, named
`get_perplexity`, which returns a scalar perplexity for a single-string input
and otherwise a list with exactly one perplexity per input string, in input
order. -/
theorem claim_C4 (M : LM) (s : String) (ts : List String) (batch : Option Nat)
    (fr fr' : Bool) (hb : 1 ≤ batch.getD ts.length) :
    "get_perplexity" ∈ lm_public_methods
    ∧ (∃ r : ℝ, M.get_perplexity (Sum.inl s) batch fr = Sum.inl r)
    ∧ ∃ l : List ℝ, M.get_perplexity (Sum.inr ts) batch fr' = Sum.inr l
        ∧ l.length = ts.length
        ∧ ∀ (j : Nat) (r : List Nat × List Nat), (M.seq_rows ts)[j]? = some r
            → l[j]? = some (Real.exp (M.seq_loss r.1 r.2)) := by
  refine ⟨by decide, ⟨_, rfl⟩, M.ppl_list ts batch, rfl, ?_, ?_⟩
  · unfold LM.ppl_list
    rw [loss_list_eq_map M ts batch hb]
    simp [length_seq_rows]
  · intro j r hr
    unfold LM.ppl_list
    rw [loss_list_eq_map M ts batch hb, List.getElem?_map, List.getElem?_map, hr]
    simp

/-- Witness for C4 at `wLM` with the single string `"a"` and the list `["ab"]`. -/
theorem claim_C4_witness :
    (1 ≤ (none : Option Nat).getD (["ab"] : List String).length)
    ∧ ("get_perplexity" ∈ lm_public_methods
        ∧ (∃ r : ℝ, wLM.get_perplexity (Sum.inl "a") none true = Sum.inl r)
        ∧ ∃ l : List ℝ, wLM.get_perplexity (Sum.inr ["ab"]) none false = Sum.inr l
            ∧ l.length = (["ab"] : List String).length
            ∧ ∀ (j : Nat) (r : List Nat × List Nat), (wLM.seq_rows ["ab"])[j]? = some r
                → l[j]? = some (Real.exp (wLM.seq_loss r.1 r.2))) :=
  ⟨by decide, claim_C4 wLM "a" ["ab"] none true false (by decide)⟩

theorem input_ids_eq (M : LM) (ts : List String) :
    (M.model_inputs ts).input_ids
      = (M.trunc_tokens ts).map (padTo M.padTokenId (M.pad_width ts)) := rfl

theorem length_padTo (padId n : Nat) (xs : List Nat) (h : xs.length ≤ n) :
    (padTo padId n xs).length = n := by
  simp only [padTo, List.length_append, List.length_replicate]
  omega

/-- Claim C6: with a fixed `max_length` every sequence is truncated and padded
to exactly that length; without one every sequence is padded to the batch's
longest truncated sequence length; and any `token_type_ids` field the
tokenizer produced is dropped before the model is called. -/
theorem claim_C6 (M : LM) (ts : List String) (j : Nat) (t : String) (L : Nat)
    (ht : ts[j]? = some t) :
    (M.max_length = some L →
        (M.model_inputs ts).input_ids[j]?
          = some (padTo M.padTokenId L ((M.tokenizeRaw t).take L))
        ∧ (padTo M.padTokenId L ((M.tokenizeRaw t).take L)).length = L)
    ∧ (M.max_length = none →
        (M.model_inputs ts).input_ids[j]?
          = some (padTo M.padTokenId (M.pad_width ts)
              ((M.tokenizeRaw t).take M.modelMaxLength))
        ∧ M.pad_width ts = ((M.trunc_tokens ts).map List.length).foldr max 0
        ∧ (padTo M.padTokenId (M.pad_width ts)
            ((M.tokenizeRaw t).take M.modelMaxLength)).length = M.pad_width ts)
    ∧ (M.model_inputs ts).token_type_ids = none
    ∧ (M.producesTokenTypeIds = true
        → (M.tokenizer_output ts).token_type_ids ≠ none) := by
  refine ⟨?_, ?_, rfl, ?_⟩
  · intro hL
    have htr : (M.trunc_tokens ts)[j]? = some ((M.tokenizeRaw t).take L) := by
      unfold LM.trunc_tokens
      rw [hL, List.getElem?_map, ht]
      rfl
    have hw : M.pad_width ts = L := by
      unfold LM.pad_width
      rw [hL]
    constructor
    · rw [input_ids_eq, List.getElem?_map, htr, hw]
      rfl
    · exact length_padTo _ _ _ (by rw [List.length_take]; omega)
  · intro hL
    have htr : (M.trunc_tokens ts)[j]?
        = some ((M.tokenizeRaw t).take M.modelMaxLength) := by
      unfold LM.trunc_tokens
      rw [hL, List.getElem?_map, ht]
      rfl
    have hle : ((M.tokenizeRaw t).take M.modelMaxLength).length ≤ M.pad_width ts := by
      have hmem := List.mem_map_of_mem List.length (List.getElem?_mem htr)
      unfold LM.pad_width
      rw [hL]
      exact le_foldr_max hmem
    refine ⟨?_, ?_, length_padTo _ _ _ hle⟩
    · rw [input_ids_eq, List.getElem?_map, htr]
      rfl
    · unfold LM.pad_width
      rw [hL]
  · intro hp
    show (M.tokenizer_output ts).token_type_ids ≠ none
    simp [LM.tokenizer_output, hp]

/-- Witness for C6 at `wLM` (built without a fixed `max_length`) on `["ab"]`. -/
theorem claim_C6_witness :
    ((["ab"] : List String)[0]? = some "ab")
    ∧ ((wLM.max_length = some 3 →
        (wLM.model_inputs ["ab"]).input_ids[0]?
          = some (padTo wLM.padTokenId 3 ((wLM.tokenizeRaw "ab").take 3))
        ∧ (padTo wLM.padTokenId 3 ((wLM.tokenizeRaw "ab").take 3)).length = 3)
    ∧ (wLM.max_length = none →
        (wLM.model_inputs ["ab"]).input_ids[0]?
          = some (padTo wLM.padTokenId (wLM.pad_width ["ab"])
              ((wLM.tokenizeRaw "ab").take wLM.modelMaxLength))
        ∧ wLM.pad_width ["ab"] = ((wLM.trunc_tokens ["ab"]).map List.length).foldr max 0
        ∧ (padTo wLM.padTokenId (wLM.pad_width ["ab"])
            ((wLM.tokenizeRaw "ab").take wLM.modelMaxLength)).length = wLM.pad_width ["ab"])
    ∧ (wLM.model_inputs ["ab"]).token_type_ids = none
    ∧ (wLM.producesTokenTypeIds = true
        → (wLM.tokenizer_output ["ab"]).token_type_ids ≠ none)) :=
  ⟨by decide, claim_C6 wLM ["ab"] 0 "ab" 3 (by decide)⟩

/-- Claim C7: with `batch = None` the batch size defaults to the number of
inputs and the loop runs exactly one chunk covering them all; with a given
batch size `b ≥ 1` the loop processes consecutive slices starting at `i * b`,
every chunk except the last having exactly `b` rows and the last holding the
remaining rows, at most `b` of them. -/
theorem claim_C7 (M : LM) (ts : List String) (b : Nat)
    (hts : ts ≠ []) (hb : 1 ≤ b) :
    (pyRangeStep ts.length ts.length = [0]
      ∧ M.loss_list ts none = (M.seq_rows ts).map fun r => M.seq_loss r.1 r.2)
    ∧ (M.loss_list ts (some b)
        = ((pyRangeStep ts.length b).map
            fun s => (((M.seq_rows ts).drop s).take b).map
              fun r => M.seq_loss r.1 r.2).flatten
      ∧ (pyRangeStep ts.length b).length = (ts.length + b - 1) / b
      ∧ (∀ i : Nat, i < (ts.length + b - 1) / b
          → (pyRangeStep ts.length b)[i]? = some (i * b))
      ∧ (∀ i : Nat, i + 1 < (ts.length + b - 1) / b
          → (((M.seq_rows ts).drop (i * b)).take b).length = b)
      ∧ (((M.seq_rows ts).drop (((ts.length + b - 1) / b - 1) * b)).take b).length
          = ts.length - ((ts.length + b - 1) / b - 1) * b
      ∧ ts.length - ((ts.length + b - 1) / b - 1) * b ≤ b) := by
  have hn : 1 ≤ ts.length := List.length_pos.mpr hts
  have hceil : ts.length ≤ ((ts.length + b - 1) / b) * b := le_ceil_mul _ _ hb
  have hlast : (((ts.length + b - 1) / b) - 1) * b < ts.length :=
    ceil_mul_lt _ _ hb hn
  have hk1 : 1 ≤ (ts.length + b - 1) / b := by
    rw [Nat.le_div_iff_mul_le (by omega : 0 < b)]
    omega
  have hsub : (((ts.length + b - 1) / b) - 1) * b
      = ((ts.length + b - 1) / b) * b - b := Nat.sub_one_mul _ _
  constructor
  · constructor
    · have hk : (ts.length + ts.length - 1) / ts.length = 1 :=
        Nat.div_eq_of_lt_le (by omega) (by omega)
      unfold pyRangeStep
      rw [hk]
      rfl
    · exact loss_list_eq_map M ts none (by simpa using hn)
  · refine ⟨rfl, length_pyRangeStep _ _, ?_, ?_, ?_, ?_⟩
    · intro i hi
      exact getElem?_pyRangeStep _ _ _ hi
    · intro i hi
      rw [List.length_take, List.length_drop, length_seq_rows]
      have hmul : (i + 1) * b ≤ ((ts.length + b - 1) / b - 1) * b :=
        Nat.mul_le_mul_right b (by omega)
      have hsm : (i + 1) * b = i * b + b := Nat.succ_mul i b
      omega
    · rw [List.length_take, List.length_drop, length_seq_rows]
      omega
    · omega

/-- Witness for C7 at `wLM` on a three-text batch with `b = 2`. -/
theorem claim_C7_witness :
    ((["a", "b", "c"] : List String) ≠ [] ∧ 1 ≤ 2)
    ∧ ((pyRangeStep (["a", "b", "c"] : List String).length
          (["a", "b", "c"] : List String).length = [0]
      ∧ wLM.loss_list ["a", "b", "c"] none
          = (wLM.seq_rows ["a", "b", "c"]).map fun r => wLM.seq_loss r.1 r.2)
    ∧ (wLM.loss_list ["a", "b", "c"] (some 2)
        = ((pyRangeStep (["a", "b", "c"] : List String).length 2).map
            fun s => (((wLM.seq_rows ["a", "b", "c"]).drop s).take 2).map
              fun r => wLM.seq_loss r.1 r.2).flatten
      ∧ (pyRangeStep (["a", "b", "c"] : List String).length 2).length
          = ((["a", "b", "c"] : List String).length + 2 - 1) / 2
      ∧ (∀ i : Nat, i < ((["a", "b", "c"] : List String).length + 2 - 1) / 2
          → (pyRangeStep (["a", "b", "c"] : List String).length 2)[i]? = some (i * 2))
      ∧ (∀ i : Nat, i + 1 < ((["a", "b", "c"] : List String).length + 2 - 1) / 2
          → (((wLM.seq_rows ["a", "b", "c"]).drop (i * 2)).take 2).length = 2)
      ∧ (((wLM.seq_rows ["a", "b", "c"]).drop
            ((((["a", "b", "c"] : List String).length + 2 - 1) / 2 - 1) * 2)).take 2).length
          = (["a", "b", "c"] : List String).length
              - (((["a", "b", "c"] : List String).length + 2 - 1) / 2 - 1) * 2
      ∧ (["a", "b", "c"] : List String).length
            - (((["a", "b", "c"] : List String).length + 2 - 1) / 2 - 1) * 2 ≤ 2)) :=
  ⟨⟨by decide, by decide⟩, claim_C7 wLM ["a", "b", "c"] 2 (by decide) (by decide)⟩

/-- Claim C8: for a non-empty input list and any batch size `b ≥ 1`,
`get_perplexity` returns the same list of perplexity values as the default
single-batch run. -/
theorem claim_C8 (M : LM) (ts : List String) (b : Nat) (fr fr' : Bool)
    (hts : ts ≠ []) (hb : 1 ≤ b) :
    M.get_perplexity (Sum.inr ts) (some b) fr
      = M.get_perplexity (Sum.inr ts) none fr' := by
  have hn : 1 ≤ ts.length := List.length_pos.mpr hts
  show Sum.inr (M.ppl_list ts (some b)) = Sum.inr (M.ppl_list ts none)
  unfold LM.ppl_list
  rw [loss_list_eq_map M ts (some b) (by simpa using hb),
    loss_list_eq_map M ts none (by simpa using hn)]

/-- Witness for C8 at `wLM` on a three-text batch with `b = 2`. -/
theorem claim_C8_witness :
    ((["a", "b", "c"] : List String) ≠ [] ∧ 1 ≤ 2)
    ∧ wLM.get_perplexity (Sum.inr ["a", "b", "c"]) (some 2) true
        = wLM.get_perplexity (Sum.inr ["a", "b", "c"]) none false :=
  ⟨⟨by decide, by decide⟩,
    claim_C8 wLM ["a", "b", "c"] 2 true false (by decide) (by decide)⟩

/-- Claim C10: the division by `valid_length` is unguarded.  On the concrete
scorer `cLM` the text tokenizes to a single token, the batch row fed to the
loss is `([5], [1])`, and the divisor `valid_length` is zero; conversely every
padded sequence containing at least two non-pad tokens has a nonzero
divisor. -/
theorem claim_C10 (M : LM) (ids : List Nat)
    (h2 : 2 ≤ ids.countP fun t => decide (t ≠ M.padTokenId)) :
    (cLM.seq_rows ["hi"] = [([5], [1])] ∧ cLM.valid_length [5] = 0)
    ∧ M.valid_length ids ≠ 0 := by
  refine ⟨⟨by decide, by decide⟩, ?_⟩
  rw [valid_length_eq_countP]
  cases ids with
  | nil => simp at h2
  | cons a l =>
    rw [List.countP_cons] at h2
    simp only [List.drop_succ_cons, List.drop_zero]
    split at h2 <;> omega

/-- Witness for C10 at `cLM` with the two-token sequence `[1, 2]`. -/
theorem claim_C10_witness :
    (2 ≤ ([1, 2] : List Nat).countP fun t => decide (t ≠ cLM.padTokenId))
    ∧ ((cLM.seq_rows ["hi"] = [([5], [1])] ∧ cLM.valid_length [5] = 0)
        ∧ cLM.valid_length [1, 2] ≠ 0) :=
  ⟨by decide, claim_C10 cLM [1, 2] (by decide)⟩

end Lmppl
